import Mathlib

/-!
Verification development for the syncthing-linker repository.

The definitions below are a shallow embedding of the Python sources:
  * `app/utilities.py` (link_source_to_destination, source_path_is_qualified),
  * `app/main.py` (Main.process_event, Main.loop_events),
  * `app/syncthing/events.py` (Events.events) and
    `app/Syncthing/Events.py` (Events._events, Events.stop).
Paths are modelled as normalized strings, the filesystem as explicit lists of
existing files / directories / created hardlinks, and Python's `re` module by a
small matcher that is faithful on the pattern subset the program uses
(literal characters, backslash escapes, the any-character dot and the
end-of-string anchor); like `re.Pattern.match` it is anchored at position 0
and succeeds on any prefix match.
-/

namespace SyncthingLinker

/-- `str.startswith`: character-wise prefix test. -/
def strStartsWith (s p : String) : Bool :=
  p.data.isPrefixOf s.data

/-- `s[n:]`: drop the first `n` characters. -/
def strDrop (s : String) (n : Nat) : String :=
  String.mk (s.data.drop n)

/-- Split a character list at every occurrence of the separator. -/
def splitChars (sep : Char) : List Char → List (List Char)
  | [] => [[]]
  | c :: cs =>
    let r := splitChars sep cs
    if c == sep then [] :: r
    else
      match r with
      | [] => [[c]]
      | g :: gs => (c :: g) :: gs

/-- Path components as produced by `pathlib.PurePath.parts` for a normalized
POSIX path string (the leading anchor is tracked separately). -/
def pathParts (s : String) : List String :=
  ((splitChars '/' s.data).map String.mk).filter (fun t => t ≠ "")

/-- Whether the path string is absolute (`PurePath.is_absolute`). -/
def pathAbs (p : String) : Bool := strStartsWith p "/"

/-- `','.join(xs)`: join strings with a comma between consecutive
elements. -/
def joinWithComma : List String → String
  | [] => ""
  | [x] => x
  | x :: y :: xs => x ++ "," ++ joinWithComma (y :: xs)

/-- Join strings with a slash between consecutive elements. -/
def joinWithSlash : List String → String
  | [] => ""
  | [x] => x
  | x :: y :: xs => x ++ "/" ++ joinWithSlash (y :: xs)

/-- Rebuild a path string from an anchor flag and components. -/
def joinParts (abs : Bool) (ps : List String) : String :=
  if abs then (if ps.isEmpty then "/" else "/" ++ joinWithSlash ps)
  else (if ps.isEmpty then "." else joinWithSlash ps)

/-- `pathlib.Path.parent`: drop the last component. -/
def parentDir (p : String) : String :=
  joinParts (pathAbs p) ((pathParts p).dropLast)

/-- The proper ancestors of a directory path, outermost first; these are the
intermediate directories `Path.mkdir(parents=True)` may have to create. -/
def strictAncestors (p : String) : List String :=
  (List.range (pathParts p).length).map
    (fun k => joinParts (pathAbs p) ((pathParts p).take k))

/-- Abstract filesystem state: existing regular files, existing directories,
and the hardlinks created so far as (destination, source) pairs. -/
structure FS where
  files : List String
  dirs : List String
  links : List (String × String)
  deriving DecidableEq, Repr

/-- `Path.exists()` on the abstract filesystem. -/
def FS.pathExists (fs : FS) (p : String) : Bool :=
  fs.files.contains p || fs.dirs.contains p

/-- `Path.is_dir()` on the abstract filesystem. -/
def FS.isDir (fs : FS) (p : String) : Bool :=
  fs.dirs.contains p

/-- `Path.mkdir(parents=True, exist_ok=True)`: the directory and all its
missing ancestors come into existence. -/
def mkdirParents (fs : FS) (dir : String) : FS :=
  { fs with dirs := dir :: strictAncestors dir ++ fs.dirs }

/-- Token of the embedded regular-expression subset. -/
inductive RTok
  | lit (c : Char)
  | anyChar
  | endAnchor
  deriving DecidableEq, Repr

/-- `re.compile` on the pattern subset used by the program: a backslash
escapes the following character to a literal, `.` matches any character
except a newline, `$` anchors at the end of the subject. -/
def compilePattern : List Char → List RTok
  | [] => []
  | '\\' :: c :: rest => RTok.lit c :: compilePattern rest
  | '\\' :: [] => []
  | '.' :: rest => RTok.anyChar :: compilePattern rest
  | '$' :: rest => RTok.endAnchor :: compilePattern rest
  | c :: rest => RTok.lit c :: compilePattern rest

/-- Matching a token list against the subject, anchored at the current
position; an exhausted pattern succeeds (prefix match, as in Python). -/
def reMatchTok : List RTok → List Char → Bool
  | [], _ => true
  | RTok.endAnchor :: ts, [] => reMatchTok ts []
  | RTok.endAnchor :: _, _ :: _ => false
  | RTok.lit _ :: _, [] => false
  | RTok.anyChar :: _, [] => false
  | RTok.lit c :: ts, d :: ds => c == d && reMatchTok ts ds
  | RTok.anyChar :: ts, d :: ds => (d != '\n') && reMatchTok ts ds

/-- `re.compile(pattern).match(s) is not None`: like Python's
`re.Pattern.match` the attempt is anchored at position 0 of `s`. -/
def reMatch (pattern s : String) : Bool :=
  reMatchTok (compilePattern pattern.data) s.data

/-- `pathlib.PurePath.is_relative_to`: lexical containment, reflexive
(the components of `root` are a prefix of the components of `p`). -/
def isRelativeTo (p root : String) : Bool :=
  (pathAbs p == pathAbs root) && (pathParts root).isPrefixOf (pathParts p)

/-- The configuration values consumed by `app/utilities.py`
(`AppConfig.source`, `.destination`, and the `excludes` pattern string that
`AppConfig.load_from_yaml` passes to `re.compile`). -/
structure UtilConfig where
  source : String
  destination : String
  excludes : String
  deriving DecidableEq, Repr

/-- `utilities.source_path_is_qualified`: exists, not a directory, inside the
source root, and not matched by the compiled exclusion pattern. -/
def sourcePathIsQualified (fs : FS) (cfg : UtilConfig) (p : String) : Bool :=
  if fs.pathExists p = false then false
  else if fs.isDir p then false
  else if isRelativeTo p cfg.source = false then false
  else if reMatch cfg.excludes p then false
  else true

/-- Result of `Path.hardlink_to` as the program can observe it. -/
inductive OsErr
  | fileExists
  | noSuchSource
  deriving DecidableEq, Repr

/-- `destination_path.hardlink_to(source)`: fails with `FileExistsError` when
the destination exists, with an `OSError` when the source is missing, and
otherwise creates the destination as a hardlink to the source. -/
def hardlinkTo (fs : FS) (destination source : String) : FS × Option OsErr :=
  if fs.pathExists destination then (fs, some OsErr.fileExists)
  else if fs.pathExists source = false then (fs, some OsErr.noSuchSource)
  else
    let fs2 : FS :=
      { files := destination :: fs.files
        dirs := fs.dirs
        links := (destination, source) :: fs.links }
    (fs2, none)

/-- How one materialization call ended (all outcomes are returns, never
raised exceptions: the code catches `FileExistsError` and `OSError`). -/
inductive LinkOutcome
  | created
  | destExists
  | raceFileExists
  | osError
  deriving DecidableEq, Repr

/-- `utilities.link_source_to_destination`: create the destination's parent
directory tree when missing, return untouched when the destination already
exists, otherwise attempt the hardlink, swallowing `FileExistsError` and
logging any other `OSError`. -/
def linkSourceToDestination (fs : FS) (source destination : String) :
    FS × LinkOutcome :=
  let parent := parentDir destination
  let fs1 := if fs.pathExists parent then fs else mkdirParents fs parent
  if fs1.pathExists destination then (fs1, LinkOutcome.destExists)
  else
    match hardlinkTo fs1 destination source with
    | (fs2, none) => (fs2, LinkOutcome.created)
    | (fs2, some OsErr.fileExists) => (fs2, LinkOutcome.raceFileExists)
    | (fs2, some OsErr.noSuchSource) => (fs2, LinkOutcome.osError)

/-- The `data` payload of a remote event, as `Main.process_event` reads it:
a key is `some` when present with a usable value. -/
structure EventData where
  error : Option String := none
  folder : Option String := none
  item : Option String := none
  deriving DecidableEq, Repr

/-- A remote event: a monotonically increasing integer id and a payload. -/
structure Event where
  id : Nat
  data : EventData := {}
  deriving DecidableEq, Repr

/-- The two remote metadata lookups `Main.process_event` performs:
`syncthing.config.folder(folder)['path']` and
`syncthing.database.file(folder, item)['local']['name']`; `none` models the
`KeyError` path (missing key in the response). -/
structure Lookups where
  folderPath : String → Option String
  fileLocalName : String → String → Option String

/-- The configuration values `Main.process_event` consumes
(`config['source']` and `config['destination']`). -/
structure MainConfig where
  source : String
  destination : String
  deriving DecidableEq, Repr

/-- Where `Main.process_event` returned. -/
inductive ProcOutcome
  | skippedGuard
  | lookupMiss
  | sourceMissing
  | outsideSource
  | destExisted
  | linked
  | linkRace
  | linkOsError
  deriving DecidableEq, Repr

/-- `Main.process_event` (app/main.py lines 107-146): guard on the payload,
resolve the source path by string concatenation of the folder path and the
file's local name, check existence and the source-root prefix, then the same
mkdir / existence-check / hardlink sequence as the materializer. -/
def processEvent (cfg : MainConfig) (lk : Lookups) (fs : FS) (ev : Event) :
    FS × ProcOutcome :=
  let data := ev.data
  if data.error.isSome || data.folder.isNone || data.item.isNone then
    (fs, ProcOutcome.skippedGuard)
  else
    match data.folder, data.item with
    | some folderId, some item =>
      match lk.folderPath folderId, lk.fileLocalName folderId item with
      | some fpath, some lname =>
        let source := fpath ++ lname
        if fs.pathExists source = false then (fs, ProcOutcome.sourceMissing)
        else if strStartsWith source cfg.source = false then
          (fs, ProcOutcome.outsideSource)
        else
          let destination := cfg.destination ++ strDrop source cfg.source.length
          match linkSourceToDestination fs source destination with
          | (fs2, LinkOutcome.destExists) => (fs2, ProcOutcome.destExisted)
          | (fs2, LinkOutcome.created) => (fs2, ProcOutcome.linked)
          | (fs2, LinkOutcome.raceFileExists) => (fs2, ProcOutcome.linkRace)
          | (fs2, LinkOutcome.osError) => (fs2, ProcOutcome.linkOsError)
      | _, _ => (fs, ProcOutcome.lookupMiss)
    | _, _ => (fs, ProcOutcome.skippedGuard)

/-- Outcome of one long-poll HTTP request as the generator in
`Events.events` / `Events._events` distinguishes them: a decoded batch,
a swallowed `Timeout`, or any other exception. -/
inductive PollResult
  | batch (events : List Event)
  | timeout
  | error
  deriving DecidableEq, Repr

/-- Observable actions of the consumer loop. `sleep` is included so that the
presence or absence of a backoff delay is expressible; the embedded code
contains no call that would emit it. -/
inductive Act
  | newStream (since : Nat)
  | poll (since : Nat)
  | yieldEv (e : Event)
  | setCursor (n : Nat)
  | raiseErr
  | sleep (seconds : Nat)
  deriving DecidableEq, Repr

/-- `self._last_seen_id = data[-1].get('id')` for a non-empty batch; an empty
batch leaves the cursor untouched (`if data:` is false for `[]`). -/
def cursorAfterBatch (c : Nat) (b : List Event) : Nat :=
  match b.getLast? with
  | some e => e.id
  | none => c

/-- The cursor after a sequence of successfully retrieved batches. -/
def runBatches (c : Nat) (bs : List (List Event)) : Nat :=
  bs.foldl cursorAfterBatch c

/-- The query parameters built for one poll in `Events.events`
(app/syncthing/events.py lines 100-106). -/
structure PollParams where
  since : Nat
  limit : Option Nat
  events : Option String
  deriving DecidableEq, Repr

/-- Parameter construction of `Events.events`: `since` and `limit` always,
and `events=','.join(filters)` only when the coerced filter list is
non-empty (`if filters:`); `None` filters are coerced to `[]`. -/
def buildEventParams (lastSeenId : Nat) (limit : Option Nat)
    (filters : Option (List String)) : PollParams :=
  let fs := match filters with
    | none => []
    | some l => l
  { since := lastSeenId, limit := limit,
    events := if fs.isEmpty then none
      else some (joinWithComma fs) }

/-- The generator loop of `Events.events` (app/syncthing/events.py lines
99-123) driven by a script of poll outcomes: emitted actions, final cursor,
and `some remaining` when a non-timeout exception aborted the generator
(`raise SyncthingException`), leaving the rest of the script unconsumed by
this stream. -/
def runEventsE : Nat → List PollResult → List Act × Nat × Option (List PollResult)
  | c, [] => ([], c, none)
  | c, PollResult.timeout :: rs =>
    let r := runEventsE c rs
    (Act.poll c :: r.1, r.2)
  | c, PollResult.batch [] :: rs =>
    let r := runEventsE c rs
    (Act.poll c :: r.1, r.2)
  | c, PollResult.batch (e :: es) :: rs =>
    let m := cursorAfterBatch c (e :: es)
    let r := runEventsE m rs
    (Act.poll c :: ((e :: es).map Act.yieldEv ++ Act.setCursor m :: r.1), r.2)
  | c, PollResult.error :: rs => ([Act.poll c, Act.raiseErr], c, some rs)

/-- `Main.loop_events` (app/main.py lines 88-105): create an event stream at
the current cursor, drain it, and on `SyncthingError` resume with the
stream's cursor by creating a new stream; no delay is performed between the
failure and the retry. The fuel bounds the number of stream restarts. -/
def loopEvents : Nat → Nat → List PollResult → List Act × Nat
  | 0, c, _ => ([], c)
  | fuel + 1, c, script =>
    match runEventsE c script with
    | (tr, c', none) => (Act.newStream c :: tr, c')
    | (tr, c', some rem) =>
      let r := loopEvents fuel c' rem
      (Act.newStream c :: tr ++ r.1, r.2)

/-- Total seconds slept in a trace. -/
def sleepTotal (tr : List Act) : Nat :=
  (tr.map (fun a => match a with
    | Act.sleep s => s
    | _ => 0)).sum

/-- Whether an action is the issuing of a poll request. -/
def isPollAct : Act → Bool
  | Act.poll _ => true
  | _ => false

/-- The generator loop of `Events._events` (app/Syncthing/Events.py lines
118-147) with the `blocking` flag: each script entry is the poll outcome
paired with whether the consumer invoked `stop()` while handling that
iteration; after the iteration the `while self.blocking` condition is
re-checked, so a signalled stop ends the loop before any further poll. -/
def runStoppable : Nat → List (PollResult × Bool) → List Act × Nat
  | c, [] => ([], c)
  | c, (PollResult.error, _) :: _ => ([Act.poll c, Act.raiseErr], c)
  | c, (PollResult.timeout, s) :: rs =>
    if s then ([Act.poll c], c)
    else
      let r := runStoppable c rs
      (Act.poll c :: r.1, r.2)
  | c, (PollResult.batch [], s) :: rs =>
    if s then ([Act.poll c], c)
    else
      let r := runStoppable c rs
      (Act.poll c :: r.1, r.2)
  | c, (PollResult.batch (e :: es), s) :: rs =>
    let m := cursorAfterBatch c (e :: es)
    let seg := Act.poll c :: ((e :: es).map Act.yieldEv ++ [Act.setCursor m])
    if s then (seg, m)
    else
      let r := runStoppable m rs
      (seg ++ r.1, r.2)

/-- The batch payloads of the successful polls of a script. -/
def toBatches (script : List PollResult) : List (List Event) :=
  script.filterMap (fun r => match r with
    | PollResult.batch b => some b
    | _ => none)

/-- The last ids of the non-empty batches of a batch sequence. -/
def batchLastIds (bs : List (List Event)) : List Nat :=
  bs.filterMap (fun b => (b.getLast?).map Event.id)

/-- Modelled from the spec: a path is "lexically under" the source root when
the root's components are a proper prefix of the path's components — the
spec's containment clause additionally rejects "a path equal to ... the
root", so equality is excluded here. Used only to compare the spec's
containment wording with the code's `is_relative_to` test. -/
def specLexicallyUnder (p root : String) : Bool :=
  (pathAbs p == pathAbs root) && (pathParts root).isPrefixOf (pathParts p)
    && (pathParts p != pathParts root)

/-! ### Fixtures: concrete inputs used by counterexamples and witnesses -/

/-- The scenario event of the spec: `{id: 5, data: {folder: "f1", item: "a/b.txt"}}`. -/
def evC2 : Event :=
  { id := 5, data := { folder := some "f1", item := some "a/b.txt" } }

/-- The scenario roots exactly as the claim states them (no trailing separator). -/
def cfgC2lit : MainConfig :=
  { source := "/files/source", destination := "/files/destination" }

/-- The scenario roots with trailing separators, as the code's string
concatenation requires. -/
def cfgC2slash : MainConfig :=
  { source := "/files/source/", destination := "/files/destination/" }

/-- Folder `f1` resolves to path `/files/source`, file `a/b.txt` to local
name `a/b.txt` (the claim's literal lookup results). -/
def lkC2lit : Lookups :=
  { folderPath := fun f => if f = "f1" then some "/files/source" else none
    fileLocalName := fun f it =>
      if f = "f1" && it = "a/b.txt" then some "a/b.txt" else none }

/-- The same lookups with the folder path carrying a trailing separator. -/
def lkC2slash : Lookups :=
  { folderPath := fun f => if f = "f1" then some "/files/source/" else none
    fileLocalName := fun f it =>
      if f = "f1" && it = "a/b.txt" then some "a/b.txt" else none }

/-- Scenario filesystem: the source file exists, the destination root exists
and is empty. -/
def fsC2 : FS :=
  { files := ["/files/source/a/b.txt"]
    dirs := ["/", "/files", "/files/source", "/files/source/a",
             "/files/destination"]
    links := [] }

/-- A regular file under the source root, with the empty exclusion pattern
configured (the default when the YAML has no `excludes` key). -/
def cfgC4 : UtilConfig :=
  { source := "/files/source/", destination := "/files/destination/",
    excludes := "" }

/-- Filesystem for the empty-pattern check: one regular file under the root. -/
def fsC4 : FS :=
  { files := ["/files/source/a.txt"]
    dirs := ["/", "/files", "/files/source"]
    links := [] }

/-- Configuration with the exclusion pattern of the claim. -/
def cfgC5 : UtilConfig :=
  { source := "/files/source/", destination := "/files/destination/",
    excludes := "\\.tmp$" }

/-- Filesystem with a `.tmp` file and a `.txt` file under the source root. -/
def fsC5 : FS :=
  { files := ["/files/source/x.tmp", "/files/source/x.txt"]
    dirs := ["/", "/files", "/files/source"]
    links := [] }

/-- An error-free event that names a folder but no item. -/
def evC6 : Event :=
  { id := 1, data := { folder := some "f1" } }

/-- Any configuration; the C6 guard fires before it is consulted. -/
def cfgC6 : MainConfig :=
  { source := "/files/source/", destination := "/files/destination/" }

/-- Lookups that would succeed, showing the guard alone causes the skip. -/
def lkC6 : Lookups :=
  { folderPath := fun _ => some "/files/source/"
    fileLocalName := fun _ _ => some "x.txt" }

/-- An empty filesystem. -/
def fsC6 : FS := { files := [], dirs := [], links := [] }

/-- A configuration whose source root is `/files/source` and whose exclusion
pattern matches no path in this development. -/
def cfgC7 : UtilConfig :=
  { source := "/files/source", destination := "/files/destination",
    excludes := "Z" }

/-- A filesystem in which the source-root path itself exists as a regular
file (not a directory). -/
def fsC7 : FS :=
  { files := ["/files/source"], dirs := ["/", "/files"], links := [] }

/-- A filesystem holding a regular file outside the source root. -/
def fsC7w : FS :=
  { files := ["/other/x.txt"], dirs := ["/", "/other"], links := [] }

/-! ### Claims -/

/-- C4: the claim says the empty exclusion pattern excludes nothing; in the
code `re.compile('')` is matched with `re.Pattern.match`, which succeeds on
every subject (a zero-width match at position 0), so with the empty pattern
`source_path_is_qualified` rejects every path — here a regular file under
the source root that satisfies every other check. The code contradicts the
spec's clearly stated intent (the default configuration would exclude every
file and the program would link nothing). -/
theorem C4_empty_pattern_excludes_everything :
    (∀ s : String, reMatch "" s = true)
    ∧ sourcePathIsQualified fsC4 cfgC4 "/files/source/a.txt" = false := by
  constructor
  · intro s
    rfl
  · decide

/-- C5: the claim says exclusion is an unanchored regular-expression match,
so with pattern `\.tmp$` every path ending in `.tmp` fails qualification.
The code uses `re.Pattern.match`, which anchors the attempt at position 0:
the pattern does not fire on `/files/source/x.tmp` (first conjunct), so the
path qualifies (second conjunct), contradicting the claim; the matcher is a
genuine anchored matcher (it does fire on a subject that starts with
`.tmp`, third conjunct), and a `.txt` path is unaffected by the pattern and
qualifies (fourth conjunct). -/
theorem C5_anchored_match_lets_tmp_qualify :
    reMatch "\\.tmp$" "/files/source/x.tmp" = false
    ∧ sourcePathIsQualified fsC5 cfgC5 "/files/source/x.tmp" = true
    ∧ reMatch "\\.tmp$" ".tmp" = true
    ∧ sourcePathIsQualified fsC5 cfgC5 "/files/source/x.txt" = true := by
  decide

/-- C10: with an absent (`None`) or empty event-type filter list the poll
request omits the `events` parameter entirely, and a non-empty filter list
is sent comma-joined in the single `events` parameter. -/
theorem C10_empty_filters_omit_events_param (c : Nat) (l : Option Nat)
    (fl : List String) (hfl : fl ≠ []) :
    (buildEventParams c l none).events = none
    ∧ (buildEventParams c l (some [])).events = none
    ∧ (buildEventParams c l (some fl)).events = some (joinWithComma fl) := by
  refine ⟨rfl, rfl, ?_⟩
  cases fl with
  | nil => exact absurd rfl hfl
  | cons x xs => rfl

/-- Witness for C10 at a concrete filter list. -/
theorem C10_empty_filters_omit_events_param_witness :
    (buildEventParams 3 (some 10) none).events = none
    ∧ (buildEventParams 3 (some 10) (some [])).events = none
    ∧ (buildEventParams 3 (some 10) (some ["ItemFinished"])).events
        = some (joinWithComma ["ItemFinished"]) :=
  C10_empty_filters_omit_events_param 3 (some 10) ["ItemFinished"] (by decide)

/-- C6 counterexample: an error-free event whose payload names a folder but
no item. The claim says such an event (at least one of folder/item present)
proceeds to resolution; the code's guard
`data.get('error') is not None or 'folder' not in data or 'item' not in data`
skips it. -/
theorem C6_counterexample :
    (processEvent cfgC6 lkC6 fsC6 evC6).2 = ProcOutcome.skippedGuard
    ∧ evC6.data.error = none
    ∧ evC6.data.folder = some "f1"
    ∧ evC6.data.item = none := by
  decide

/-- C6 as amended: the consumer skips exactly those events that carry an
error payload or are missing at least one of the folder and item
identifiers; an event proceeds past the guard only when it is error-free
and carries both. -/
theorem C6_amended_guard_requires_both (cfg : MainConfig) (lk : Lookups)
    (fs : FS) (ev : Event) :
    (processEvent cfg lk fs ev).2 = ProcOutcome.skippedGuard ↔
      (ev.data.error.isSome = true ∨ ev.data.folder = none
        ∨ ev.data.item = none) := by
  obtain ⟨i, err, fol, it⟩ := ev
  cases err <;> cases fol <;> cases it <;>
    simp only [processEvent, Option.isSome_none, Option.isSome_some,
      Option.isNone_none, Option.isNone_some, Bool.false_or, Bool.or_false,
      Bool.true_or, Bool.or_true, if_true, if_false, Bool.or_self] <;>
    try simp
  case none.some.some f x =>
    rcases hf : lk.folderPath f with _ | fp <;>
      rcases hl : lk.fileLocalName f x with _ | ln <;>
        simp only [hf, hl]
    · simp
    · simp
    · simp
    · by_cases h1 : fs.pathExists (fp ++ ln) = false <;>
        by_cases h2 : strStartsWith (fp ++ ln) cfg.source = false <;>
          simp only [h1, h2, if_true, if_false] <;> try simp
      all_goals
        rcases hlk : linkSourceToDestination fs (fp ++ ln)
            (cfg.destination ++ strDrop (fp ++ ln) cfg.source.length)
          with ⟨fs2, oc⟩
      all_goals cases oc <;> simp [hlk]

/-- C2 counterexample: with the claim's literal values — source root
`/files/source`, folder path `/files/source`, local name `a/b.txt` — the
code computes `source = '/files/source' + 'a/b.txt' = '/files/sourcea/b.txt'`
(plain string concatenation, no separator), which does not exist, so the
event is dropped: no directory `/files/destination/a` and no hardlink
`/files/destination/a/b.txt` are created. -/
theorem C2_counterexample :
    (processEvent cfgC2lit lkC2lit fsC2 evC2).1 = fsC2
    ∧ (processEvent cfgC2lit lkC2lit fsC2 evC2).2 = ProcOutcome.sourceMissing
    ∧ ((processEvent cfgC2lit lkC2lit fsC2 evC2).1.pathExists
        "/files/destination/a/b.txt") = false
    ∧ ((processEvent cfgC2lit lkC2lit fsC2 evC2).1.isDir
        "/files/destination/a") = false := by
  decide

/-- C2 as amended: with the folder path and the configured roots carrying
trailing separators (`/files/source/`, `/files/destination/`), processing
the event creates directory `/files/destination/a`, creates a hardlink at
`/files/destination/a/b.txt` pointing to `/files/source/a/b.txt`, and a
batch consisting of this event advances the cursor to 5. -/
theorem C2_amended_scenario :
    ((processEvent cfgC2slash lkC2slash fsC2 evC2).1.isDir
      "/files/destination/a") = true
    ∧ ((processEvent cfgC2slash lkC2slash fsC2 evC2).1.links.contains
        ("/files/destination/a/b.txt", "/files/source/a/b.txt")) = true
    ∧ (processEvent cfgC2slash lkC2slash fsC2 evC2).2 = ProcOutcome.linked
    ∧ (runEventsE 0 [PollResult.batch [evC2]]).2.1 = 5 := by
  decide

/-- C7 counterexample: a path equal to the source root itself. The claim
says such a path is rejected regardless of existence and directory-ness;
but `Path.is_relative_to` is reflexive, so when the root path exists as a
regular file (and the exclusion pattern does not match) the code qualifies
it. -/
theorem C7_counterexample :
    specLexicallyUnder "/files/source" "/files/source" = false
    ∧ isRelativeTo "/files/source" "/files/source" = true
    ∧ sourcePathIsQualified fsC7 cfgC7 "/files/source" = true := by
  decide

/-- C7 as amended: for every path that the code's containment test
`is_relative_to` rejects — i.e. every path not lexically at-or-under the
source root — qualification returns false regardless of the filesystem
state and the exclusion pattern; a path equal to the root is treated as
contained and can be rejected only by the existence or directory checks. -/
theorem C7_amended_containment (fs : FS) (cfg : UtilConfig) (p : String)
    (h : isRelativeTo p cfg.source = false) :
    sourcePathIsQualified fs cfg p = false := by
  unfold sourcePathIsQualified
  by_cases h1 : fs.pathExists p = false
  · simp [h1]
  · by_cases h2 : fs.isDir p <;> simp [h1, h2, h]

/-- Witness for C7 (amended) at a concrete outside path that exists and is
a regular file. -/
theorem C7_amended_containment_witness :
    sourcePathIsQualified fsC7w cfgC7 "/other/x.txt" = false :=
  C7_amended_containment fsC7w cfgC7 "/other/x.txt" (by decide)

/-! ### Materializer lemmas (claim C3) -/

/-- A directory freshly created by `mkdir(parents=True)` exists. -/
lemma pathExists_mkdirParents_self (fs : FS) (p : String) :
    (mkdirParents fs p).pathExists p = true := by
  simp [mkdirParents, FS.pathExists]

/-- Existence after prepending a file entry. -/
lemma pathExists_consFile (x : String) (fs : FS) (l : List (String × String))
    (q : String) :
    (FS.mk (x :: fs.files) fs.dirs l).pathExists q
      = (decide (q = x) || fs.pathExists q) := by
  simp [FS.pathExists, Bool.or_assoc]

/-- The materializer first normalizes the filesystem by creating the
destination's parent directory tree when missing; afterwards it behaves as
on a filesystem where that parent exists. -/
lemma link_fs1 (fs : FS) (s d : String) :
    linkSourceToDestination fs s d
      = linkSourceToDestination
          (if fs.pathExists (parentDir d) then fs
           else mkdirParents fs (parentDir d)) s d := by
  by_cases hp : fs.pathExists (parentDir d)
  · simp [hp]
  · simp [linkSourceToDestination, hp, pathExists_mkdirParents_self]

/-- On a filesystem where the destination's parent exists, the materializer
is the three-way case split of the code: destination present — untouched;
source present — hardlink created; otherwise — `OSError` logged, filesystem
untouched. -/
lemma link_step (g : FS) (s d : String)
    (hp : g.pathExists (parentDir d) = true) :
    linkSourceToDestination g s d
      = (if g.pathExists d then (g, LinkOutcome.destExists)
         else if g.pathExists s then
           (FS.mk (d :: g.files) g.dirs ((d, s) :: g.links),
            LinkOutcome.created)
         else (g, LinkOutcome.osError)) := by
  by_cases hd : g.pathExists d <;> by_cases hs : g.pathExists s <;>
    simp [linkSourceToDestination, hardlinkTo, hp, hd, hs]

/-- After any materializer call the destination's parent directory exists. -/
lemma link_parent_after (fs : FS) (s d : String) :
    ((linkSourceToDestination fs s d).1).pathExists (parentDir d) = true := by
  rw [link_fs1 fs s d]
  by_cases hp0 : fs.pathExists (parentDir d)
  · rw [if_pos hp0, link_step fs s d hp0]
    by_cases hd : fs.pathExists d <;> by_cases hs : fs.pathExists s <;>
      simp [hd, hs, pathExists_consFile, hp0]
  · rw [if_neg hp0]
    have hp : (mkdirParents fs (parentDir d)).pathExists (parentDir d) = true :=
      pathExists_mkdirParents_self fs (parentDir d)
    rw [link_step _ s d hp]
    by_cases hd : (mkdirParents fs (parentDir d)).pathExists d <;>
      by_cases hs : (mkdirParents fs (parentDir d)).pathExists s <;>
        simp [hd, hs, pathExists_consFile, hp]

/-- Materialization is idempotent on the filesystem: a second call with the
same pair leaves the state of the first call unchanged. -/
lemma link_idem (g : FS) (s d : String)
    (hp : g.pathExists (parentDir d) = true) :
    (linkSourceToDestination (linkSourceToDestination g s d).1 s d).1
      = (linkSourceToDestination g s d).1 := by
  rw [link_step g s d hp]
  by_cases hd : g.pathExists d
  · rw [if_pos hd]
    show (linkSourceToDestination g s d).1 = g
    rw [link_step g s d hp, if_pos hd]
  · rw [if_neg hd]
    by_cases hs : g.pathExists s
    · rw [if_pos hs]
      show (linkSourceToDestination
          (FS.mk (d :: g.files) g.dirs ((d, s) :: g.links)) s d).1
        = FS.mk (d :: g.files) g.dirs ((d, s) :: g.links)
      have hp2 : (FS.mk (d :: g.files) g.dirs
          ((d, s) :: g.links)).pathExists (parentDir d) = true := by
        rw [pathExists_consFile]
        simp [hp]
      have hd2 : (FS.mk (d :: g.files) g.dirs
          ((d, s) :: g.links)).pathExists d = true := by
        rw [pathExists_consFile]
        simp
      rw [link_step _ s d hp2, if_pos hd2]
    · rw [if_neg hs]
      show (linkSourceToDestination g s d).1 = g
      rw [link_step g s d hp, if_neg hd, if_neg hs]

/-- A call that reports `created` leaves the destination existing. -/
lemma link_created_dest (g : FS) (s d : String)
    (hp : g.pathExists (parentDir d) = true)
    (h : (linkSourceToDestination g s d).2 = LinkOutcome.created) :
    ((linkSourceToDestination g s d).1).pathExists d = true := by
  rw [link_step g s d hp] at h ⊢
  by_cases hd : g.pathExists d
  · rw [if_pos hd] at h
    simp at h
  · by_cases hs : g.pathExists s
    · rw [if_neg hd, if_pos hs]
      rw [pathExists_consFile]
      simp
    · rw [if_neg hd, if_neg hs] at h
      simp at h

/-- C3: materialization is idempotent. When the destination path already
exists (on a well-formed filesystem its parent exists too) the materializer
returns without modifying anything; for every filesystem, calling
materialize twice with the same source/destination pair leaves the state of
the first call unchanged; and after a successful first call the second call
reports the benign `destExists` outcome — no error is raised on the second
call (the code catches `FileExistsError` and `OSError`, so no call ever
raises). -/
theorem C3_materialize_idempotent (fs : FS) (s d : String)
    (hd : fs.pathExists d = true)
    (hp : fs.pathExists (parentDir d) = true) :
    linkSourceToDestination fs s d = (fs, LinkOutcome.destExists)
    ∧ (∀ g : FS,
        (linkSourceToDestination (linkSourceToDestination g s d).1 s d).1
          = (linkSourceToDestination g s d).1)
    ∧ (∀ g : FS, (linkSourceToDestination g s d).2 = LinkOutcome.created →
        linkSourceToDestination (linkSourceToDestination g s d).1 s d
          = ((linkSourceToDestination g s d).1, LinkOutcome.destExists)) := by
  refine ⟨?_, ?_, ?_⟩
  · rw [link_fs1 fs s d, if_pos hp, link_step fs s d hp, if_pos hd]
  · intro g
    rw [link_fs1 g s d]
    by_cases hp0 : g.pathExists (parentDir d)
    · rw [if_pos hp0]
      exact link_idem g s d hp0
    · rw [if_neg hp0]
      exact link_idem (mkdirParents g (parentDir d)) s d
        (pathExists_mkdirParents_self g (parentDir d))
  · intro g hcr
    have hdest : ((linkSourceToDestination g s d).1).pathExists d = true := by
      rw [link_fs1 g s d] at hcr ⊢
      by_cases hp0 : g.pathExists (parentDir d)
      · rw [if_pos hp0] at hcr ⊢
        exact link_created_dest g s d hp0 hcr
      · rw [if_neg hp0] at hcr ⊢
        exact link_created_dest (mkdirParents g (parentDir d)) s d
          (pathExists_mkdirParents_self g (parentDir d)) hcr
    rw [link_step ((linkSourceToDestination g s d).1) s d
      (link_parent_after g s d), if_pos hdest]

/-- Fixture for the C3 witness: source and destination files both exist. -/
def fsC3 : FS :=
  { files := ["/files/source/a.txt", "/files/destination/a.txt"]
    dirs := ["/", "/files", "/files/source", "/files/destination"]
    links := [] }

/-- Witness for C3 at a concrete filesystem where the destination exists. -/
theorem C3_materialize_idempotent_witness :
    linkSourceToDestination fsC3 "/files/source/a.txt"
        "/files/destination/a.txt" = (fsC3, LinkOutcome.destExists)
    ∧ (∀ g : FS,
        (linkSourceToDestination (linkSourceToDestination g
            "/files/source/a.txt" "/files/destination/a.txt").1
          "/files/source/a.txt" "/files/destination/a.txt").1
          = (linkSourceToDestination g "/files/source/a.txt"
              "/files/destination/a.txt").1)
    ∧ (∀ g : FS, (linkSourceToDestination g "/files/source/a.txt"
          "/files/destination/a.txt").2 = LinkOutcome.created →
        linkSourceToDestination (linkSourceToDestination g
            "/files/source/a.txt" "/files/destination/a.txt").1
          "/files/source/a.txt" "/files/destination/a.txt"
          = ((linkSourceToDestination g "/files/source/a.txt"
              "/files/destination/a.txt").1, LinkOutcome.destExists)) :=
  C3_materialize_idempotent fsC3 "/files/source/a.txt"
    "/files/destination/a.txt" (by decide) (by decide)

/-! ### Event-cursor lemmas (claims C1, C8, C9) -/

/-- A boolean non-decreasing test on a list of naturals. -/
def nondecreasing : List Nat → Bool
  | a :: b :: rest => if a ≤ b then nondecreasing (b :: rest) else false
  | _ => true

/-- Head decomposition of `nondecreasing`. -/
lemma nondecreasing_cons (a b : Nat) (l : List Nat)
    (h : nondecreasing (a :: b :: l) = true) :
    a ≤ b ∧ nondecreasing (b :: l) = true := by
  by_cases hab : a ≤ b
  · refine ⟨hab, ?_⟩
    simpa [nondecreasing, hab] using h
  · simp [nondecreasing, hab] at h

/-- An empty batch leaves the cursor where it was. -/
lemma runBatches_nil_batch (c : Nat) (bs : List (List Event)) :
    runBatches c ([] :: bs) = runBatches c bs := rfl

/-- The cursor after all batches is decided by the last non-empty batch. -/
lemma runBatches_last (c : Nat) (bs : List (List Event)) (b : List Event)
    (e : Event) (hb : bs.getLast? = some b) (he : b.getLast? = some e) :
    runBatches c bs = e.id := by
  induction bs using List.reverseRecOn with
  | nil => simp at hb
  | append_singleton bs' b' ih =>
    rw [List.getLast?_concat] at hb
    obtain rfl : b' = b := by injection hb
    simp [runBatches, cursorAfterBatch, he]

/-- The generator's cursor after a script of successful polls equals the
per-batch fold of the `data[-1]` update. -/
lemma runEventsE_cursor (c : Nat) (bs : List (List Event)) :
    (runEventsE c (bs.map PollResult.batch)).2.1 = runBatches c bs := by
  induction bs generalizing c with
  | nil => rfl
  | cons b bs ih =>
    cases b with
    | nil => simpa [runEventsE, runBatches, cursorAfterBatch] using ih c
    | cons e es => simp [runEventsE, runBatches, ih]

/-- `batchLastIds` on a cons. -/
lemma batchLastIds_cons (b : List Event) (bs : List (List Event)) :
    batchLastIds (b :: bs)
      = (match b.getLast? with
         | some e => e.id :: batchLastIds bs
         | none => batchLastIds bs) := by
  cases hb : b.getLast? <;> simp [batchLastIds, hb]

/-- When the batch maxima (together with the starting cursor) are
non-decreasing, the cursor never decreases from one batch to the next. -/
lemma runBatches_take_mono (c : Nat) (bs : List (List Event))
    (h : nondecreasing (c :: batchLastIds bs) = true) :
    ∀ k, runBatches c (bs.take k) ≤ runBatches c (bs.take (k + 1)) := by
  induction bs generalizing c with
  | nil =>
    intro k
    simp [runBatches]
  | cons b bs ih =>
    intro k
    cases k with
    | zero =>
      cases hb : b.getLast? with
      | none =>
        simp [runBatches, cursorAfterBatch, hb]
      | some e =>
        have hmem : nondecreasing (c :: e.id :: batchLastIds bs) = true := by
          rw [batchLastIds_cons] at h
          simpa [hb] using h
        have := (nondecreasing_cons c e.id (batchLastIds bs) hmem).1
        simpa [runBatches, cursorAfterBatch, hb] using this
    | succ k =>
      have step : ∀ m, runBatches c ((b :: bs).take (m + 1))
          = runBatches (cursorAfterBatch c b) (bs.take m) := by
        intro m
        simp [runBatches]
      rw [step k, step (k + 1)]
      cases hb : b.getLast? with
      | none =>
        have hc : cursorAfterBatch c b = c := by
          simp [cursorAfterBatch, hb]
        rw [hc]
        refine ih c ?_ k
        rw [batchLastIds_cons] at h
        simpa [hb] using h
      | some e =>
        have hc : cursorAfterBatch c b = e.id := by
          simp [cursorAfterBatch, hb]
        rw [hc]
        refine ih e.id ?_ k
        rw [batchLastIds_cons] at h
        simp only [hb] at h
        exact (nondecreasing_cons c e.id (batchLastIds bs) h).2

/-- C1: within one successfully retrieved non-empty batch the generator
yields every event and only afterwards performs its single cursor write,
setting it to the last event's id (first conjunct — the cursor update does
not depend on how any event was processed downstream); after a script of
successful polls the cursor equals the last id of the last non-empty batch,
i.e. `mN` (second conjunct); and when the batch maxima are non-decreasing
from the starting cursor (the remote invariant), the cursor never
decreases across polls (third conjunct). -/
theorem C1_cursor_monotone_batch_advance (c : Nat) (bs : List (List Event))
    (b : List Event) (e : Event)
    (hb : bs.getLast? = some b) (he : b.getLast? = some e)
    (hmono : nondecreasing (c :: batchLastIds bs) = true) :
    (∀ (c' : Nat) (ev : Event) (evs : List Event) (rest : List PollResult),
      runEventsE c' (PollResult.batch (ev :: evs) :: rest) =
        (Act.poll c' :: ((ev :: evs).map Act.yieldEv
            ++ Act.setCursor (cursorAfterBatch c' (ev :: evs))
              :: (runEventsE (cursorAfterBatch c' (ev :: evs)) rest).1),
         (runEventsE (cursorAfterBatch c' (ev :: evs)) rest).2))
    ∧ (runEventsE c (bs.map PollResult.batch)).2.1 = e.id
    ∧ (∀ k, runBatches c (bs.take k) ≤ runBatches c (bs.take (k + 1))) := by
  refine ⟨fun c' ev evs rest => rfl, ?_, runBatches_take_mono c bs hmono⟩
  rw [runEventsE_cursor]
  exact runBatches_last c bs b e hb he

/-- Witness events for C1. -/
def evW1 : Event := { id := 1 }

/-- Witness events for C1. -/
def evW2 : Event := { id := 2 }

/-- Witness events for C1. -/
def evW3 : Event := { id := 3 }

/-- Witness for C1 at a concrete two-batch script. -/
theorem C1_cursor_monotone_batch_advance_witness :
    (runEventsE 0 ([[evW1], [evW2, evW3]].map PollResult.batch)).2.1 = evW3.id
    ∧ runBatches 0 ([[evW1], [evW2, evW3]].take 1)
        ≤ runBatches 0 ([[evW1], [evW2, evW3]].take 2) :=
  ⟨(C1_cursor_monotone_batch_advance 0 [[evW1], [evW2, evW3]]
      [evW2, evW3] evW3 (by decide) (by decide) (by decide)).2.1,
   (C1_cursor_monotone_batch_advance 0 [[evW1], [evW2, evW3]]
      [evW2, evW3] evW3 (by decide) (by decide) (by decide)).2.2 1⟩

/-- Yielded events are not poll requests. -/
lemma countP_yieldEv (l : List Event) :
    ((l.map Act.yieldEv).countP isPollAct) = 0 := by
  induction l with
  | nil => rfl
  | cons e l ih => simp [List.countP_cons, isPollAct, ih]

/-- C9: when the consumer signals `stop()` during some iteration (and no
transport error occurred before), the generator issues exactly the polls up
to and including that iteration — none afterwards — and the final cursor is
exactly the per-batch fold over the batches retrieved up to and including
the last fully processed one. -/
theorem C9_stop_halts_polling (c : Nat) (pre : List (PollResult × Bool))
    (r : PollResult) (post : List (PollResult × Bool))
    (hpre : ∀ x ∈ pre, x.2 = false)
    (hprerr : ∀ x ∈ pre, x.1 ≠ PollResult.error)
    (hr : r ≠ PollResult.error) :
    ((runStoppable c (pre ++ (r, true) :: post)).1.countP isPollAct
        = pre.length + 1)
    ∧ (runStoppable c (pre ++ (r, true) :: post)).2
        = runBatches c (toBatches (pre.map Prod.fst ++ [r])) := by
  revert hpre hprerr
  induction pre generalizing c with
  | nil =>
    intro hpre hprerr
    cases r with
    | batch b =>
      cases b with
      | nil =>
        exact ⟨by simp [runStoppable, List.countP_cons, isPollAct],
          by simp [runStoppable, toBatches, runBatches, cursorAfterBatch]⟩
      | cons e es =>
        constructor
        · simp [runStoppable, List.countP_cons, List.countP_append,
            countP_yieldEv, isPollAct]
        · simp [runStoppable, toBatches, runBatches]
    | timeout =>
      exact ⟨by simp [runStoppable, List.countP_cons, isPollAct],
        by simp [runStoppable, toBatches, runBatches]⟩
    | error => exact absurd rfl hr
  | cons x pre ih =>
    intro hpre hprerr
    obtain ⟨xr, xs⟩ := x
    have hxs : xs = false := hpre (xr, xs) (List.mem_cons_self _ _)
    have hxr : xr ≠ PollResult.error := hprerr (xr, xs) (List.mem_cons_self _ _)
    have hpre2 : ∀ y ∈ pre, y.2 = false :=
      fun y hy => hpre y (List.mem_cons_of_mem _ hy)
    have hprerr2 : ∀ y ∈ pre, y.1 ≠ PollResult.error :=
      fun y hy => hprerr y (List.mem_cons_of_mem _ hy)
    subst hxs
    cases xr with
    | error => exact absurd rfl hxr
    | timeout =>
      obtain ⟨ihc, ihk⟩ := ih c hpre2 hprerr2
      constructor
      · simp [runStoppable, List.countP_cons, isPollAct, ihc]
      · simpa [runStoppable, toBatches] using ihk
    | batch b =>
      cases b with
      | nil =>
        obtain ⟨ihc, ihk⟩ := ih c hpre2 hprerr2
        constructor
        · simp [runStoppable, List.countP_cons, isPollAct, ihc]
        · simpa [runStoppable, toBatches, runBatches_nil_batch] using ihk
      | cons e es =>
        obtain ⟨ihc, ihk⟩ := ih (cursorAfterBatch c (e :: es)) hpre2 hprerr2
        constructor
        · simp [runStoppable, List.countP_cons, List.countP_append,
            countP_yieldEv, isPollAct, ihc]
        · simpa [runStoppable, toBatches, runBatches] using ihk

/-- Witness for C9: stop is signalled while the second batch is handled;
exactly two polls happen and the cursor is the fold over both batches. -/
theorem C9_stop_halts_polling_witness :
    ((runStoppable 0 ([(PollResult.batch [evW1], false)]
        ++ (PollResult.batch [evW2], true)
          :: [(PollResult.timeout, false)])).1.countP isPollAct = 2)
    ∧ (runStoppable 0 ([(PollResult.batch [evW1], false)]
        ++ (PollResult.batch [evW2], true)
          :: [(PollResult.timeout, false)])).2
        = runBatches 0 (toBatches ([(PollResult.batch [evW1], false)].map
            Prod.fst ++ [PollResult.batch [evW2]])) :=
  C9_stop_halts_polling 0 [(PollResult.batch [evW1], false)]
    (PollResult.batch [evW2]) [(PollResult.timeout, false)]
    (by decide) (by decide) (by decide)

/-- The cursor and the resume point after a stream that dies on the first
transport error: the error does not advance the cursor. -/
lemma runEventsE_error_split (c : Nat) (pre post : List PollResult)
    (hpre : PollResult.error ∉ pre) :
    (runEventsE c (pre ++ PollResult.error :: post)).2
      = (runBatches c (toBatches pre), some post) := by
  revert hpre
  induction pre generalizing c with
  | nil =>
    intro _
    rfl
  | cons x pre ih =>
    intro hpre
    have hx : x ≠ PollResult.error := by
      intro h
      exact hpre (by rw [h]; exact List.mem_cons_self _ _)
    have hpre2 : PollResult.error ∉ pre :=
      fun h => hpre (List.mem_cons_of_mem _ h)
    cases x with
    | error => exact absurd rfl hx
    | timeout => simpa [runEventsE, toBatches] using ih c hpre2
    | batch b =>
      cases b with
      | nil =>
        simpa [runEventsE, toBatches, runBatches_nil_batch] using ih c hpre2
      | cons e es =>
        simpa [runEventsE, toBatches, runBatches]
          using ih (cursorAfterBatch c (e :: es)) hpre2

/-- Unfolding `sleepTotal` over a cons. -/
lemma sleepTotal_cons (a : Act) (tr : List Act) :
    sleepTotal (a :: tr)
      = (match a with | Act.sleep s => s | _ => 0) + sleepTotal tr := by
  simp [sleepTotal]

/-- `sleepTotal` is additive over concatenation. -/
lemma sleepTotal_append (t1 t2 : List Act) :
    sleepTotal (t1 ++ t2) = sleepTotal t1 + sleepTotal t2 := by
  simp [sleepTotal]

/-- Yield actions carry no sleep. -/
lemma sleepTotal_yieldEv (l : List Event) :
    sleepTotal (l.map Act.yieldEv) = 0 := by
  induction l with
  | nil => rfl
  | cons e l ih => simp [sleepTotal_cons, ih]

/-- The generator never sleeps. -/
lemma sleepTotal_runEventsE (c : Nat) (script : List PollResult) :
    sleepTotal (runEventsE c script).1 = 0 := by
  induction script generalizing c with
  | nil => rfl
  | cons x rest ih =>
    cases x with
    | timeout => simp [runEventsE, sleepTotal_cons, ih]
    | error => rfl
    | batch b =>
      cases b with
      | nil => simp [runEventsE, sleepTotal_cons, ih]
      | cons e es =>
        simp [runEventsE, sleepTotal_cons, sleepTotal_append,
          sleepTotal_yieldEv, ih]

/-- The event loop never sleeps: no backoff delay exists anywhere in the
consumer. -/
lemma sleepTotal_loopEvents (fuel c : Nat) (script : List PollResult) :
    sleepTotal (loopEvents fuel c script).1 = 0 := by
  induction fuel generalizing c script with
  | zero => rfl
  | succ fuel ih =>
    rcases h : runEventsE c script with ⟨tr, c2, rem⟩
    have htr : sleepTotal tr = 0 := by
      have h0 := sleepTotal_runEventsE c script
      rw [h] at h0
      exact h0
    cases rem with
    | none => simp [loopEvents, h, sleepTotal_cons, htr]
    | some rem2 =>
      simp [loopEvents, h, sleepTotal_cons, sleepTotal_append, htr, ih]

/-- On consecutive transport failures the loop retries without limit and
without moving the cursor: a script of `n` errors produces `n` polls and
leaves the cursor at its starting value. -/
lemma loopEvents_replicate_errors (c : Nat) :
    ∀ n, ((loopEvents (n + 1) c
        (List.replicate n PollResult.error)).1.countP isPollAct = n)
      ∧ (loopEvents (n + 1) c (List.replicate n PollResult.error)).2 = c := by
  intro n
  induction n with
  | zero => exact ⟨rfl, rfl⟩
  | succ n ih =>
    rw [List.replicate_succ]
    have hstep : loopEvents (n + 1 + 1) c
        (PollResult.error :: List.replicate n PollResult.error)
        = (Act.newStream c :: ([Act.poll c, Act.raiseErr]
            ++ (loopEvents (n + 1) c
                (List.replicate n PollResult.error)).1),
           (loopEvents (n + 1) c
              (List.replicate n PollResult.error)).2) := rfl
    rw [hstep]
    constructor
    · simp [List.countP_cons, List.countP_append, isPollAct, ih.1]
    · exact ih.2

/-- C8 counterexample: a concrete transport failure followed by a timeout.
The whole loop trace contains no sleep at all (total slept time 0, not the
claimed approximately 5 seconds), while the retry poll after the failure
carries the same cursor 7 as the failed poll. -/
theorem C8_counterexample :
    loopEvents 3 7 [PollResult.error, PollResult.timeout]
      = ([Act.newStream 7, Act.poll 7, Act.raiseErr,
          Act.newStream 7, Act.poll 7], 7)
    ∧ sleepTotal (loopEvents 3 7 [PollResult.error, PollResult.timeout]).1
        = 0 := by
  decide

/-- C8 as amended: on a transport-level poll failure the consumer retries
immediately — no backoff delay is performed anywhere in the loop — with the
same cursor value the failed poll used; the cursor is not advanced by the
failed poll, and retries are unlimited (a script of `n` consecutive errors
yields `n` polls, all at the unchanged cursor). -/
theorem C8_amended_immediate_retry (c : Nat) (pre post : List PollResult)
    (fuel : Nat) (hpre : PollResult.error ∉ pre) :
    ((runEventsE c (pre ++ PollResult.error :: post)).2.1
        = runBatches c (toBatches pre))
    ∧ ((runEventsE c (pre ++ PollResult.error :: post)).2.2 = some post)
    ∧ (sleepTotal (loopEvents (fuel + 1) c
        (pre ++ PollResult.error :: post)).1 = 0)
    ∧ ((loopEvents (fuel + 1) c (pre ++ PollResult.error :: post)).1
        = Act.newStream c
            :: (runEventsE c (pre ++ PollResult.error :: post)).1
          ++ (loopEvents fuel (runBatches c (toBatches pre)) post).1)
    ∧ (∀ n, ((loopEvents (n + 1) c
          (List.replicate n PollResult.error)).1.countP isPollAct = n)
        ∧ (loopEvents (n + 1) c (List.replicate n PollResult.error)).2
            = c) := by
  have hsplit := runEventsE_error_split c pre post hpre
  refine ⟨?_, ?_, sleepTotal_loopEvents (fuel + 1) c _, ?_,
    loopEvents_replicate_errors c⟩
  · rw [hsplit]
  · rw [hsplit]
  · rcases h : runEventsE c (pre ++ PollResult.error :: post)
      with ⟨tr, c2, rem⟩
    rw [h] at hsplit
    have hc2 : c2 = runBatches c (toBatches pre) :=
      congrArg Prod.fst hsplit
    have hrem : rem = some post := congrArg Prod.snd hsplit
    subst hc2
    subst hrem
    simp [loopEvents, h]

/-- Witness for C8 (amended) at a concrete script: one successful batch,
then the failure, then a timeout. -/
theorem C8_amended_immediate_retry_witness :
    ((runEventsE 0 ([PollResult.batch [evW1]]
        ++ PollResult.error :: [PollResult.timeout])).2.1
        = runBatches 0 (toBatches [PollResult.batch [evW1]]))
    ∧ ((runEventsE 0 ([PollResult.batch [evW1]]
        ++ PollResult.error :: [PollResult.timeout])).2.2
        = some [PollResult.timeout]) :=
  ⟨(C8_amended_immediate_retry 0 [PollResult.batch [evW1]]
      [PollResult.timeout] 1 (by decide)).1,
   (C8_amended_immediate_retry 0 [PollResult.batch [evW1]]
      [PollResult.timeout] 1 (by decide)).2.1⟩

end SyncthingLinker
